import Mathlib

/-!
Verification of the deployment orchestration core of the unified deployment
orchestrator (Neon database, Railway backend, Vercel frontend).

The TypeScript sources are embedded shallowly:
- string-manipulating helpers (the GitHub URL pattern of
  Orchestrator.extractGitHubRepo, Orchestrator.generateNameFromRepo,
  Orchestrator.extractBranchFromUrl) are modeled as character-list functions;
- each platform provisioning service is modeled as a pure function over an
  oracle record (Adapters) giving the outcome of every external API call;
- thrown exceptions are modeled with Except String;
- JavaScript object literals built by spread merging are modeled as entry
  lists, with envLookup giving the value the resulting object holds for a key
  (later entries win, as in JavaScript spread semantics);
- the mutable trackedResources instance field is modeled by explicit state:
  deployFullTrinity receives the previous tracker contents and returns the
  final ones, together with the append sequence, the rollback progress events
  and the rollback delete-call sequence.
-/

namespace Trinity

/-! ## Character-list utilities -/

/-- Boolean prefix test on character lists. -/
def startsWithL (p s : List Char) : Bool :=
  List.isPrefixOf p s

/-- Boolean suffix test on character lists, via reversal. -/
def endsWithL (s suffix : List Char) : Bool :=
  startsWithL suffix.reverse s.reverse

/-- Boolean substring test on character lists. -/
def containsSub (sub : List Char) : List Char → Bool
  | [] => sub.isEmpty
  | c :: rest => startsWithL sub (c :: rest) || containsSub sub rest

/-- Splits a character list at its last slash: some (before, after), where
after holds no slash; none when the list holds no slash. -/
def splitLastSlash : List Char → Option (List Char × List Char)
  | [] => none
  | c :: rest =>
    match splitLastSlash rest with
    | some (a, b) => some (c :: a, b)
    | none => if c = '/' then some ([], rest) else none

/-- Remainder after the first occurrence of pat, none when pat never occurs. -/
def findAfterPat (pat : List Char) : List Char → Option (List Char)
  | [] => if pat.isEmpty then some [] else none
  | c :: rest =>
    if startsWithL pat (c :: rest) then some (List.drop pat.length (c :: rest))
    else findAfterPat pat rest

def slashL : List Char := ['/']

def dotGitL : List Char := ['.', 'g', 'i', 't']

def ghComL : List Char := ['g', 'i', 't', 'h', 'u', 'b', '.', 'c', 'o', 'm']

def ghComColonL : List Char := ghComL ++ [':']

def branchEqL : List Char := ['b', 'r', 'a', 'n', 'c', 'h', '=']

/-! ## Name derivation (orchestrator.ts lines 66-78, 595-614) -/

/-- JavaScript string truthiness fallback: the empty string is falsy, so
(v || d) yields d both for a missing v and for an empty v. -/
def jsOrStr (v : Option String) (d : String) : String :=
  match v with
  | some s => if s = "" then d else s
  | none => d

/-- Owner part of the match of the pattern github.com[/:]([^/]+)/ against the
text standing before the final owner/repo slash. The sep-slash case must use
the last slash of that text because the owner group admits no slash; the
sep-colon case searches the final slash-free chunk for the leftmost occurrence
of github.com: followed by at least one character. -/
def ownerFromLeft (a : List Char) : Option (List Char) :=
  match splitLastSlash a with
  | some (a1, b) =>
    if endsWithL a1 ghComL ∧ b ≠ [] then some b
    else
      match findAfterPat ghComColonL b with
      | some r => if r = [] then none else some r
      | none => none
  | none =>
    match findAfterPat ghComColonL a with
    | some r => if r = [] then none else some r
    | none => none

/-- Orchestrator.extractGitHubRepo: matches the regular expression
github.com[/:]([^/]+)/([^/]+?)(.git)?/?$ against repoPath and, on a match,
returns owner/repo with one further trailing .git stripped from the repo
group (the source applies replace of a trailing .git to the second group).
The lazy second group means a trailing .git of the last segment is consumed
by the optional .git whenever a nonempty repo remains. -/
def extractGitHubRepo (repoPath : String) : Option String :=
  let cs := repoPath.data
  let t := if endsWithL cs slashL then cs.dropLast else cs
  match splitLastSlash t with
  | none => none
  | some (a, seg) =>
    if seg = [] then none
    else
      let repo2 := if endsWithL seg dotGitL ∧ 4 < seg.length then seg.take (seg.length - 4) else seg
      match ownerFromLeft a with
      | none => none
      | some owner =>
        let repo := if endsWithL repo2 dotGitL then repo2.take (repo2.length - 4) else repo2
        some (String.mk (owner ++ '/' :: repo))

/-- The JavaScript word-character class of the backslash-w escape. -/
def isWordCharJS (c : Char) : Bool :=
  c.isAlpha || c.isDigit || c = '_'

/-- ASCII whitespace matched by the backslash-s escape. -/
def isSpaceJS (c : Char) : Bool :=
  c = ' ' || c = '\t' || c = '\n' || c = '\r' || c = '\x0b' || c = '\x0c'

/-- Replacement of hyphen and underscore by a space. -/
def sepToSpace (c : Char) : Char :=
  if c = '-' || c = '_' then ' ' else c

/-- Uppercases every word character standing at a word boundary: the flag
records whether the previous character was a word character. -/
def capWordStarts : Bool → List Char → List Char
  | _, [] => []
  | prevIsWord, c :: rest =>
    (if prevIsWord then c else if isWordCharJS c then c.toUpper else c)
      :: capWordStarts (isWordCharJS c) rest

/-- Last element of split on slash: the chunk after the last slash, or the
whole list when no slash occurs. -/
def lastSegment (s : List Char) : List Char :=
  match splitLastSlash s with
  | some (_, b) => b
  | none => s

/-- Orchestrator.generateNameFromRepo: take the repo part of owner/repo,
replace hyphen and underscore by spaces, uppercase word starts, remove all
whitespace, lowercase the result. -/
def generateNameFromRepo (githubRepo : String) : String :=
  let repoName := lastSegment githubRepo.data
  let spaced := repoName.map sepToSpace
  let capped := capWordStarts false spaced
  let collapsed := capped.filter (fun c => !isSpaceJS c)
  String.mk (collapsed.map Char.toLower)

/-- Base-name derivation used by the orchestrator when no explicit project
name is supplied: extract owner/repo from the reference, then canonicalize
the repo name. -/
def deriveName (repoPath : String) : Option String :=
  (extractGitHubRepo repoPath).map generateNameFromRepo

/-- Chunk up to the next ampersand. -/
def takeUntilAmp : List Char → List Char
  | [] => []
  | c :: rest => if c = '&' then [] else c :: takeUntilAmp rest

/-- Orchestrator.extractBranchFromUrl: first occurrence of a hash or
ampersand followed by branch= and at least one non-ampersand character;
the capture runs to the next ampersand. -/
def extractBranchFromUrlL : List Char → Option String
  | [] => none
  | c :: rest =>
    if (c = '#' || c = '&') ∧ startsWithL branchEqL rest ∧ takeUntilAmp (rest.drop 7) ≠ [] then
      some (String.mk (takeUntilAmp (rest.drop 7)))
    else extractBranchFromUrlL rest

def extractBranchFromUrl (url : String) : Option String :=
  extractBranchFromUrlL url.data

/-! ## Data model (types.ts, orchestrator.ts) -/

/-- ProjectType enumeration of types.ts. -/
inductive ProjectType
  | frontend
  | backend
  | database
  | unknown
deriving DecidableEq, Repr

/-- The string value each ProjectType member carries in the source enum. -/
def projectTypeStr : ProjectType → String
  | .frontend => "frontend"
  | .backend => "backend"
  | .database => "database"
  | .unknown => "unknown"

/-- Subset of the blueprint metadata the orchestrator reads. -/
structure BlueprintMetadata where
  framework : Option String := none
  isStreamlit : Option Bool := none
deriving DecidableEq, Repr

/-- ProjectBlueprint of types.ts; the numeric confidence score plays no role
in the orchestration logic and is carried as a natural number. -/
structure ProjectBlueprint where
  type : ProjectType
  path : String
  confidence : Nat
  indicators : List String
  metadata : Option BlueprintMetadata
deriving DecidableEq, Repr

/-- The check blueprint.metadata?.isStreamlit === true of the orchestrator. -/
def blueprintIsStreamlit (b : ProjectBlueprint) : Bool :=
  match b.metadata with
  | some m =>
    match m.isStreamlit with
    | some true => true
    | _ => false
  | none => false

/-- Cloud platforms a tracked resource can live on. -/
inductive Platform
  | neon
  | railway
  | vercel
deriving DecidableEq, Repr

/-- Platform tag of a progress event; system marks orchestration-level
messages. -/
inductive EventPlatform
  | neon
  | railway
  | vercel
  | system
deriving DecidableEq, Repr

def platformToEvent : Platform → EventPlatform
  | .neon => .neon
  | .railway => .railway
  | .vercel => .vercel

/-- The string a Platform value interpolates to in template literals. -/
def platformStr : Platform → String
  | .neon => "neon"
  | .railway => "railway"
  | .vercel => "vercel"

/-- Resource kind of a tracked resource. -/
inductive ResourceType
  | project
  | service
deriving DecidableEq, Repr

def resourceTypeStr : ResourceType → String
  | .project => "project"
  | .service => "service"

/-- An entry of the trackedResources ledger (orchestrator.ts lines 116-121). -/
structure TrackedResource where
  platform : Platform
  type : ResourceType
  id : String
  name : Option String
deriving DecidableEq, Repr

/-- One adapter delete invocation performed during rollback. -/
inductive DeleteCall
  | neonDeleteProject (i : String)
  | railwayDeleteService (i : String)
  | railwayDeleteProject (i : String)
  | vercelDeleteProject (i : String)
deriving DecidableEq, Repr

/-- The delete call the rollback loop performs for a tracked resource,
keyed on (platform, type) exactly as the if/else chain of
Orchestrator.rollback (lines 151-180); the unmatched combinations fall
through the chain with no call. -/
def deleteCallFor (r : TrackedResource) : Option DeleteCall :=
  match r.platform, r.type with
  | .neon, .project => some (.neonDeleteProject r.id)
  | .railway, .service => some (.railwayDeleteService r.id)
  | .railway, .project => some (.railwayDeleteProject r.id)
  | .vercel, .project => some (.vercelDeleteProject r.id)
  | .neon, .service => none
  | .vercel, .service => none

/-- Identifier targeted by a delete call. -/
def deleteCallId : DeleteCall → String
  | .neonDeleteProject i => i
  | .railwayDeleteService i => i
  | .railwayDeleteProject i => i
  | .vercelDeleteProject i => i

/-- A progress event; step counter, total and timestamp are presentation
details not modeled (timestamps are wall-clock reads). -/
structure ProgressEvent where
  message : String
  platform : EventPlatform
deriving DecidableEq, Repr

/-- Entry list of a JavaScript object literal; later entries win. -/
abbrev EnvMap := List (String × String)

/-- The value the object built from these entries holds at key k: the last
entry with that key wins, matching JavaScript object-literal spread
semantics. -/
def envLookup (m : EnvMap) (k : String) : Option String :=
  match m with
  | [] => none
  | (k2, v) :: rest =>
    match envLookup rest k with
    | some w => some w
    | none => if k2 = k then some v else none

/-- JavaScript (variables || defaultEmptyObject) for an optional mapping. -/
def optEnv : Option EnvMap → EnvMap
  | some v => v
  | none => []

/-- Shape of createProject results: id and name. -/
structure IdName where
  id : String
  name : String
deriving DecidableEq, Repr

structure NeonResult where
  projectId : String
  projectName : String
  databaseUrl : String
deriving DecidableEq, Repr

structure RailwayResult where
  projectId : String
  serviceId : String
  projectName : String
  serviceName : String
deriving DecidableEq, Repr

structure VercelResult where
  projectId : String
  projectName : String
  projectUrl : String
deriving DecidableEq, Repr

/-- The three fixed Streamlit optimization variables
(RailwayProvisioningService.optimizeForStreamlit). -/
def streamlitVars : EnvMap :=
  [("PORT", "8501"), ("STREAMLIT_SERVER_PORT", "8501"), ("STREAMLIT_SERVER_ADDRESS", "0.0.0.0")]

/-- RailwayProvisioningService.optimizeForStreamlit: the Streamlit variables
are spread after the existing ones, so they win on key clashes. -/
def optimizeForStreamlit (vars : EnvMap) : EnvMap :=
  vars ++ streamlitVars

/-- Outcome oracle for every external call the orchestration performs, plus
the mode flags of the run. An Except error models the call throwing. -/
structure Adapters where
  scanRepository : String → Except String ProjectBlueprint
  neonCreateProject : String → Except String IdName
  neonGetDatabaseUrl : String → Except String String
  railwayCreateProject : String → Except String IdName
  railwayCreateService : String → String → String → String → Except String IdName
  railwaySetVariables : String → String → EnvMap → Except String Unit
  vercelCreateProject : String → Option String → Except String IdName
  vercelAddEnvVariables : String → EnvMap → Except String Unit
  vercelGetProjectUrl : String → Except String String
  neonDeleteProject : String → Except String Unit
  railwayDeleteService : String → Except String Unit
  railwayDeleteProject : String → Except String Unit
  vercelDeleteProject : String → Except String Unit
  dryRun : Bool
  hasProgressCallback : Bool
  userConfirms : Bool

/-- A non-delete adapter invocation, recorded to witness which platform a
deployment routed to. -/
inductive AdapterCall
  | neonCreateProject (name : String)
  | neonGetDatabaseUrl (projectId : String)
  | railwayCreateProject (name : String)
  | railwayCreateService (projectId name : String)
  | railwaySetVariables (projectId serviceId : String) (vars : EnvMap)
  | vercelCreateProject (name : String) (repo : Option String)
  | vercelAddEnvVariables (projectId : String) (vars : EnvMap)
  | vercelGetProjectUrl (projectId : String)
deriving DecidableEq, Repr

def adapterCallPlatform : AdapterCall → Platform
  | .neonCreateProject _ => .neon
  | .neonGetDatabaseUrl _ => .neon
  | .railwayCreateProject _ => .railway
  | .railwayCreateService _ _ => .railway
  | .railwaySetVariables _ _ _ => .railway
  | .vercelCreateProject _ _ => .vercel
  | .vercelAddEnvVariables _ _ => .vercel
  | .vercelGetProjectUrl _ => .vercel

/-- Dispatches a delete call to its adapter operation. -/
def runDelete (a : Adapters) : DeleteCall → Except String Unit
  | .neonDeleteProject i => a.neonDeleteProject i
  | .railwayDeleteService i => a.railwayDeleteService i
  | .railwayDeleteProject i => a.railwayDeleteProject i
  | .vercelDeleteProject i => a.vercelDeleteProject i

/-- Message of the error event the rollback catch block emits, interpolating
the platform and kind of the resource whose delete threw. -/
def mkFailMsg (p : Platform) (t : ResourceType) (m : String) : String :=
  "Failed to delete " ++ platformStr p ++ " " ++ resourceTypeStr t ++ ": " ++ m

/-! ## Platform provisioning service models -/

/-- Calls performed and result returned by one provisioning service flow. -/
structure SvcOut (α : Type) where
  calls : List AdapterCall
  result : Except String α

/-- NeonProvisioningService.provisionDatabase: create the project, then read
its connection string; the first failure aborts the flow. -/
def neonProvisionDatabase (a : Adapters) (projectName : String) : SvcOut NeonResult :=
  match a.neonCreateProject projectName with
  | .error e => ⟨[.neonCreateProject projectName], .error e⟩
  | .ok project =>
    match a.neonGetDatabaseUrl project.id with
    | .error e => ⟨[.neonCreateProject projectName, .neonGetDatabaseUrl project.id], .error e⟩
    | .ok url =>
      ⟨[.neonCreateProject projectName, .neonGetDatabaseUrl project.id],
        .ok ⟨project.id, project.name, url⟩⟩

/-- Output of the Railway provisioning flow; setVariablesArg records the
mapping handed to setVariables when that call was reached. -/
structure RailOut where
  calls : List AdapterCall
  setVariablesArg : Option EnvMap
  result : Except String RailwayResult

/-- RailwayProvisioningService.provisionBackend: create project, create
service with the GitHub source, optimize for Streamlit when flagged, then
set the variables when the final mapping is nonempty. -/
def railwayProvisionBackend (a : Adapters) (projectName serviceName githubRepo branch : String)
    (vars : Option EnvMap) (isStreamlit : Bool) : RailOut :=
  match a.railwayCreateProject projectName with
  | .error e => ⟨[.railwayCreateProject projectName], none, .error e⟩
  | .ok project =>
    match a.railwayCreateService project.id serviceName githubRepo branch with
    | .error e =>
      ⟨[.railwayCreateProject projectName, .railwayCreateService project.id serviceName],
        none, .error e⟩
    | .ok service =>
      let finalVariables :=
        if isStreamlit then optimizeForStreamlit (optEnv vars) else optEnv vars
      if finalVariables.isEmpty then
        ⟨[.railwayCreateProject projectName, .railwayCreateService project.id serviceName],
          none, .ok ⟨project.id, service.id, project.name, service.name⟩⟩
      else
        match a.railwaySetVariables project.id service.id finalVariables with
        | .error e =>
          ⟨[.railwayCreateProject projectName, .railwayCreateService project.id serviceName,
              .railwaySetVariables project.id service.id finalVariables],
            some finalVariables, .error e⟩
        | .ok _ =>
          ⟨[.railwayCreateProject projectName, .railwayCreateService project.id serviceName,
              .railwaySetVariables project.id service.id finalVariables],
            some finalVariables, .ok ⟨project.id, service.id, project.name, service.name⟩⟩

/-- Final step of the Vercel provisioning flow: read the project URL and
assemble the result. -/
def vercelGetUrlStep (a : Adapters) (project : IdName) (calls : List AdapterCall) :
    SvcOut VercelResult :=
  match a.vercelGetProjectUrl project.id with
  | .error e => ⟨calls ++ [.vercelGetProjectUrl project.id], .error e⟩
  | .ok url => ⟨calls ++ [.vercelGetProjectUrl project.id], .ok ⟨project.id, project.name, url⟩⟩

/-- VercelProvisioningService.provisionFrontend: create the project with the
GitHub source, add the environment variables when a nonempty mapping was
supplied, then read the project URL. -/
def vercelProvisionFrontend (a : Adapters) (projectName : String) (githubRepo : Option String)
    (environmentVariables : Option EnvMap) : SvcOut VercelResult :=
  match a.vercelCreateProject projectName githubRepo with
  | .error e => ⟨[.vercelCreateProject projectName githubRepo], .error e⟩
  | .ok project =>
    let vars := optEnv environmentVariables
    let c1 : List AdapterCall := [.vercelCreateProject projectName githubRepo]
    if vars.isEmpty then vercelGetUrlStep a project c1
    else
      match a.vercelAddEnvVariables project.id vars with
      | .error e => ⟨c1 ++ [.vercelAddEnvVariables project.id vars], .error e⟩
      | .ok _ => vercelGetUrlStep a project (c1 ++ [.vercelAddEnvVariables project.id vars])

/-! ## Rollback (orchestrator.ts lines 128-185) -/

/-- Progress events emitted and delete call performed for one tracked
resource inside the rollback loop. Every branch catches the delete error,
so the loop body never propagates a failure; the (neon, service) and
(vercel, service) combinations fall through the dispatch chain silently. -/
def rollbackResource (a : Adapters) (r : TrackedResource) :
    List ProgressEvent × List DeleteCall :=
  match r.platform, r.type with
  | .neon, .project =>
    let nm := jsOrStr r.name r.id
    match a.neonDeleteProject r.id with
    | .ok _ =>
      ([⟨"Deleting Neon project: " ++ nm, .neon⟩,
        ⟨"Neon project deleted successfully", .neon⟩], [.neonDeleteProject r.id])
    | .error m =>
      ([⟨"Deleting Neon project: " ++ nm, .neon⟩,
        ⟨mkFailMsg .neon .project m, .neon⟩], [.neonDeleteProject r.id])
  | .railway, .service =>
    let nm := jsOrStr r.name r.id
    match a.railwayDeleteService r.id with
    | .ok _ =>
      ([⟨"Deleting Railway service: " ++ nm, .railway⟩,
        ⟨"Railway service deleted successfully", .railway⟩], [.railwayDeleteService r.id])
    | .error m =>
      ([⟨"Deleting Railway service: " ++ nm, .railway⟩,
        ⟨mkFailMsg .railway .service m, .railway⟩], [.railwayDeleteService r.id])
  | .railway, .project =>
    let nm := jsOrStr r.name r.id
    match a.railwayDeleteProject r.id with
    | .ok _ =>
      ([⟨"Deleting Railway project: " ++ nm, .railway⟩,
        ⟨"Railway project deleted successfully", .railway⟩], [.railwayDeleteProject r.id])
    | .error m =>
      ([⟨"Deleting Railway project: " ++ nm, .railway⟩,
        ⟨mkFailMsg .railway .project m, .railway⟩], [.railwayDeleteProject r.id])
  | .vercel, .project =>
    let nm := jsOrStr r.name r.id
    match a.vercelDeleteProject r.id with
    | .ok _ =>
      ([⟨"Deleting Vercel project: " ++ nm, .vercel⟩,
        ⟨"Vercel project deleted successfully", .vercel⟩], [.vercelDeleteProject r.id])
    | .error m =>
      ([⟨"Deleting Vercel project: " ++ nm, .vercel⟩,
        ⟨mkFailMsg .vercel .project m, .vercel⟩], [.vercelDeleteProject r.id])
  | .neon, .service => ([], [])
  | .vercel, .service => ([], [])

/-- Result of a rollback pass: its event stream, the delete calls it
performed, and the tracker contents it leaves behind. -/
structure RollbackOut where
  events : List ProgressEvent
  deletes : List DeleteCall
  tracker : List TrackedResource
deriving DecidableEq, Repr

/-- Orchestrator.rollback: announce the failure, walk the tracked resources
in reverse insertion order performing the matching delete for each, then
clear the tracker and emit the completion event. -/
def rollback (a : Adapters) (errorMessage : String) (tracked : List TrackedResource) :
    RollbackOut :=
  let intro : ProgressEvent :=
    ⟨"Deployment failed: " ++ errorMessage ++
      ". Initiating automatic rollback to clean up all created resources and prevent charges.",
      .system⟩
  let bodyEvents := tracked.reverse.flatMap (fun r => (rollbackResource a r).1)
  let bodyDeletes := tracked.reverse.flatMap (fun r => (rollbackResource a r).2)
  ⟨intro :: bodyEvents ++ [⟨"Rollback completed. All resources cleaned up.", .system⟩],
    bodyDeletes, []⟩

/-! ## Full trinity orchestration (orchestrator.ts lines 208-388) -/

/-- Success payload of deployFullTrinity. -/
structure TrinitySuccess where
  blueprint : ProjectBlueprint
  neonProjectId : String
  neonDatabaseUrl : String
  railwayProjectId : String
  railwayServiceId : String
  railwayUrl : Option String
  vercelProjectId : String
  vercelProjectUrl : String
deriving DecidableEq, Repr

/-- Observable outcome of one deployFullTrinity run: final result, ledger
append sequence, rollback event and delete-call streams (empty on success),
final tracker contents, and the stage data the claims inspect (the mapping
handed to provisionBackend, the mapping handed to Railway setVariables, and
the connection string the database stage returned). -/
structure RunOutcome where
  result : Except String TrinitySuccess
  appends : List TrackedResource
  rollbackEvents : List ProgressEvent
  rollbackDeletes : List DeleteCall
  finalTracker : List TrackedResource
  railwayVars : Option EnvMap
  setVariablesArg : Option EnvMap
  neonUrl : Option String
deriving Repr

/-- The catch block of deployFullTrinity (lines 375-387): default the falsy
message, run the rollback over the resources tracked so far, and surface the
wrapped terminal error. -/
def failRun (a : Adapters) (e : String) (tracked : List TrackedResource)
    (railwayVars setVariablesArg : Option EnvMap) (neonUrl : Option String) : RunOutcome :=
  let errorMessage := if e = "" then "Unknown error occurred during deployment" else e
  let rb := rollback a errorMessage tracked
  { result := .error ("Deployment failed: " ++ errorMessage ++
      ". Rollback completed - all created resources have been cleaned up."),
    appends := tracked,
    rollbackEvents := rb.events,
    rollbackDeletes := rb.deletes,
    finalTracker := rb.tracker,
    railwayVars := railwayVars,
    setVariablesArg := setVariablesArg,
    neonUrl := neonUrl }

/-- Orchestrator.deployFullTrinity. The previousTracker argument models the
trackedResources instance field as left by an earlier run; line 223 clears
it before anything else, so the run never reads it. The confirmation prompt
fires only in non-dry-run CLI mode (no progress callback); a refusal throws
inside the try block. -/
def deployFullTrinity (a : Adapters) (repoPath : String)
    (projectName serviceName : Option String) (environmentVariables : Option EnvMap)
    (previousTracker : List TrackedResource) : RunOutcome :=
  let _ := previousTracker
  match a.scanRepository repoPath with
  | .error e => failRun a e [] none none none
  | .ok blueprint =>
    if ¬a.dryRun ∧ ¬a.hasProgressCallback ∧ ¬a.userConfirms then
      failRun a "Deployment cancelled by user" [] none none none
    else
      match extractGitHubRepo repoPath with
      | none =>
        failRun a
          ("GitHub repository URL is required for full trinity deployment. " ++
            "Please provide a GitHub URL (e.g., https://github.com/owner/repo)")
          [] none none none
      | some githubRepo =>
        let baseName := jsOrStr projectName (generateNameFromRepo githubRepo)
        let finalServiceName := jsOrStr serviceName baseName
        match (neonProvisionDatabase a (baseName ++ "-db")).result with
        | .error e => failRun a e [] none none none
        | .ok neonResult =>
          let tracked1 : List TrackedResource :=
            [⟨.neon, .project, neonResult.projectId, some neonResult.projectName⟩]
          let railwayEnvVars : EnvMap :=
            ("DATABASE_URL", neonResult.databaseUrl) :: optEnv environmentVariables
          let branch := jsOrStr (extractBranchFromUrl repoPath) "main"
          let isStreamlit := blueprintIsStreamlit blueprint
          let rail := railwayProvisionBackend a (baseName ++ "-backend") finalServiceName
            githubRepo branch (some railwayEnvVars) isStreamlit
          match rail.result with
          | .error e =>
            failRun a e tracked1 (some railwayEnvVars) rail.setVariablesArg
              (some neonResult.databaseUrl)
          | .ok railwayResult =>
            let tracked3 := tracked1 ++
              [⟨.railway, .project, railwayResult.projectId, some railwayResult.projectName⟩,
                ⟨.railway, .service, railwayResult.serviceId, some railwayResult.serviceName⟩]
            let railwayUrl : Option String :=
              if a.dryRun then none
              else some ("https://" ++ railwayResult.serviceName ++ ".railway.app")
            let vercelEnvVars : EnvMap :=
              ("NEXT_PUBLIC_API_URL", jsOrStr railwayUrl "https://api.example.com") ::
                optEnv environmentVariables
            match (vercelProvisionFrontend a (baseName ++ "-frontend") (some githubRepo)
                (some vercelEnvVars)).result with
            | .error e =>
              failRun a e tracked3 (some railwayEnvVars) rail.setVariablesArg
                (some neonResult.databaseUrl)
            | .ok vercelResult =>
              let tracked4 := tracked3 ++
                [⟨.vercel, .project, vercelResult.projectId, some vercelResult.projectName⟩]
              { result := .ok ⟨blueprint, neonResult.projectId, neonResult.databaseUrl,
                  railwayResult.projectId, railwayResult.serviceId, railwayUrl,
                  vercelResult.projectId, vercelResult.projectUrl⟩,
                appends := tracked4,
                rollbackEvents := [],
                rollbackDeletes := [],
                finalTracker := [],
                railwayVars := some railwayEnvVars,
                setVariablesArg := rail.setVariablesArg,
                neonUrl := some neonResult.databaseUrl }

/-! ## Single-platform deployment mode (orchestrator.ts lines 398-588) -/

/-- Per-platform result shape of the single-platform mode. -/
inductive SingleDeployment
  | railway (projectId serviceId projectName serviceName : String)
  | vercel (projectId projectName projectUrl : String)
  | neon (projectId projectName databaseUrl : String)
deriving DecidableEq, Repr

/-- Orchestrator.deployToRailway. -/
def deployToRailway (a : Adapters) (repoPath : String) (blueprint : ProjectBlueprint)
    (projectName serviceName : Option String) (environmentVariables : Option EnvMap) :
    List AdapterCall × Except String SingleDeployment :=
  match extractGitHubRepo repoPath with
  | none =>
    ([], .error ("GitHub repository URL is required for Railway deployment. " ++
        "Please provide a GitHub URL (e.g., https://github.com/owner/repo)"))
  | some githubRepo =>
    let finalProjectName := jsOrStr projectName (generateNameFromRepo githubRepo)
    let finalServiceName := jsOrStr serviceName (generateNameFromRepo githubRepo)
    let branch := jsOrStr (extractBranchFromUrl repoPath) "main"
    let r := railwayProvisionBackend a finalProjectName finalServiceName githubRepo branch
      environmentVariables (blueprintIsStreamlit blueprint)
    (r.calls,
      r.result.map (fun res => .railway res.projectId res.serviceId res.projectName res.serviceName))

/-- Orchestrator.deployToVercel. -/
def deployToVercel (a : Adapters) (repoPath : String) (projectName : Option String)
    (environmentVariables : Option EnvMap) :
    List AdapterCall × Except String SingleDeployment :=
  match extractGitHubRepo repoPath with
  | none =>
    ([], .error ("GitHub repository URL is required for Vercel deployment. " ++
        "Please provide a GitHub URL (e.g., https://github.com/owner/repo)"))
  | some githubRepo =>
    let finalProjectName := jsOrStr projectName (generateNameFromRepo githubRepo)
    let r := vercelProvisionFrontend a finalProjectName (some githubRepo) environmentVariables
    (r.calls, r.result.map (fun res => .vercel res.projectId res.projectName res.projectUrl))

/-- Orchestrator.deployToNeon. -/
def deployToNeon (a : Adapters) (repoPath : String) (projectName : Option String) :
    List AdapterCall × Except String SingleDeployment :=
  let githubRepo := extractGitHubRepo repoPath
  let finalProjectName := jsOrStr projectName
    (match githubRepo with
      | some g => generateNameFromRepo g
      | none => "neon-database")
  let r := neonProvisionDatabase a finalProjectName
  (r.calls, r.result.map (fun res => .neon res.projectId res.projectName res.databaseUrl))

/-- Orchestrator.deploy: classify, then route on the category alone; the
unknown category throws before touching any adapter. -/
def deploy (a : Adapters) (repoPath : String) (projectName serviceName : Option String)
    (environmentVariables : Option EnvMap) :
    List AdapterCall × Except String (ProjectBlueprint × SingleDeployment) :=
  match a.scanRepository repoPath with
  | .error e => ([], .error e)
  | .ok blueprint =>
    match blueprint.type with
    | .backend =>
      let r := deployToRailway a repoPath blueprint projectName serviceName environmentVariables
      (r.1, r.2.map (fun d => (blueprint, d)))
    | .frontend =>
      let r := deployToVercel a repoPath projectName environmentVariables
      (r.1, r.2.map (fun d => (blueprint, d)))
    | .database =>
      let r := deployToNeon a repoPath projectName
      (r.1, r.2.map (fun d => (blueprint, d)))
    | .unknown =>
      ([], .error ("Cannot deploy project of type: " ++ projectTypeStr .unknown))

/-! ## Concrete adapter fixtures for witnesses and counterexamples -/

/-- Adapters where every external call succeeds with fixed identifiers and
the classifier reports a Streamlit backend. -/
def okAdapters : Adapters :=
  { scanRepository := fun p =>
      .ok ⟨.backend, p, 90, ["requirements.txt"], some ⟨some "streamlit", some true⟩⟩,
    neonCreateProject := fun n => .ok ⟨"neon-p1", n⟩,
    neonGetDatabaseUrl := fun _ => .ok "postgres://neon-host/db",
    railwayCreateProject := fun n => .ok ⟨"rail-p1", n⟩,
    railwayCreateService := fun _ n _ _ => .ok ⟨"rail-s1", n⟩,
    railwaySetVariables := fun _ _ _ => .ok (),
    vercelCreateProject := fun n _ => .ok ⟨"ver-p1", n⟩,
    vercelAddEnvVariables := fun _ _ => .ok (),
    vercelGetProjectUrl := fun _ => .ok "https://shop-frontend.vercel.app",
    neonDeleteProject := fun _ => .ok (),
    railwayDeleteService := fun _ => .ok (),
    railwayDeleteProject := fun _ => .ok (),
    vercelDeleteProject := fun _ => .ok (),
    dryRun := false,
    hasProgressCallback := true,
    userConfirms := true }

/-- Variant whose Vercel stage throws, so the run fails with three tracked
resources. -/
def vercelFailAdapters : Adapters :=
  { okAdapters with vercelCreateProject := fun _ _ => .error "vercel exploded" }

/-- Variant whose Railway project creation throws and whose Neon delete also
throws during rollback. -/
def rollbackFailAdapters : Adapters :=
  { okAdapters with
      railwayCreateProject := fun _ => .error "boom",
      neonDeleteProject := fun _ => .error "permission denied" }

/-- The repository reference used by the concrete runs. -/
def demoUrl : String := "https://github.com/acme/shop"

/-- Fully successful concrete run. -/
def okRun : RunOutcome := deployFullTrinity okAdapters demoUrl none none none []

/-- Concrete run with a caller-supplied DATABASE_URL entry. -/
def callerDbRun : RunOutcome :=
  deployFullTrinity okAdapters demoUrl none none
    (some [("DATABASE_URL", "postgres://caller-url")]) []

/-- Concrete failing run with three tracked resources. -/
def vercelFailRun : RunOutcome := deployFullTrinity vercelFailAdapters demoUrl none none none []

/-- Concrete failing run whose rollback delete also fails. -/
def rollbackFailRun : RunOutcome :=
  deployFullTrinity rollbackFailAdapters demoUrl none none none []

/-! ## General lemmas -/

theorem flatMap_toList_eq_filterMap {α β : Type} (f : α → Option β) (l : List α) :
    l.flatMap (fun x => (f x).toList) = l.filterMap f := by
  induction l with
  | nil => rfl
  | cons x xs ih =>
    cases h : f x <;> simp [List.filterMap_cons, h, ih]

theorem rollbackResource_deletes (a : Adapters) (r : TrackedResource) :
    (rollbackResource a r).2 = (deleteCallFor r).toList := by
  rcases r with ⟨p, t, i, nm⟩
  cases p <;> cases t <;> simp only [rollbackResource, deleteCallFor] <;>
    first
      | rfl
      | (split <;> rfl)

theorem rollback_deletes_eq (a : Adapters) (msg : String) (tracked : List TrackedResource) :
    (rollback a msg tracked).deletes = tracked.reverse.filterMap deleteCallFor := by
  show tracked.reverse.flatMap (fun r => (rollbackResource a r).2)
      = tracked.reverse.filterMap deleteCallFor
  rw [← flatMap_toList_eq_filterMap]
  exact List.flatMap_congr (fun r _ => by rw [rollbackResource_deletes])

theorem rollback_tracker_empty (a : Adapters) (msg : String) (tracked : List TrackedResource) :
    (rollback a msg tracked).tracker = [] := rfl

theorem cons_append_singleton_getLast {α : Type} (x y : α) (l : List α) :
    (x :: l ++ [y]).getLast? = some y := by
  rw [show x :: l ++ [y] = (x :: l) ++ [y] from rfl, List.getLast?_concat]

theorem rollback_last_event (a : Adapters) (msg : String) (tracked : List TrackedResource) :
    (rollback a msg tracked).events.getLast?
      = some ⟨"Rollback completed. All resources cleaned up.", .system⟩ := by
  exact cons_append_singleton_getLast _ _ _

theorem deleteCallFor_id : ∀ (r : TrackedResource) (dc : DeleteCall),
    deleteCallFor r = some dc → deleteCallId dc = r.id
  | ⟨.neon, .project, _, _⟩, _, h => by
    simp only [deleteCallFor, Option.some.injEq] at h; subst h; rfl
  | ⟨.railway, .service, _, _⟩, _, h => by
    simp only [deleteCallFor, Option.some.injEq] at h; subst h; rfl
  | ⟨.railway, .project, _, _⟩, _, h => by
    simp only [deleteCallFor, Option.some.injEq] at h; subst h; rfl
  | ⟨.vercel, .project, _, _⟩, _, h => by
    simp only [deleteCallFor, Option.some.injEq] at h; subst h; rfl
  | ⟨.neon, .service, _, _⟩, _, h => by simp [deleteCallFor] at h
  | ⟨.vercel, .service, _, _⟩, _, h => by simp [deleteCallFor] at h

theorem filterMap_deleteCallFor_ids (l : List TrackedResource)
    (h : ∀ r ∈ l, (deleteCallFor r).isSome = true) :
    (l.filterMap deleteCallFor).map deleteCallId = l.map TrackedResource.id := by
  induction l with
  | nil => rfl
  | cons x xs ih =>
    have hx := h x (List.mem_cons_self x xs)
    rcases hdc : deleteCallFor x with _ | dc
    · rw [hdc] at hx; simp at hx
    · simp only [List.filterMap_cons, hdc, List.map_cons]
      rw [deleteCallFor_id x dc hdc, ih (fun r hr => h r (List.mem_cons_of_mem x hr))]

theorem rollbackResource_fail_event (a : Adapters) (r : TrackedResource) (dc : DeleteCall)
    (e : String) (h1 : deleteCallFor r = some dc) (h2 : runDelete a dc = .error e) :
    (⟨mkFailMsg r.platform r.type e, platformToEvent r.platform⟩ : ProgressEvent)
      ∈ (rollbackResource a r).1 := by
  rcases r with ⟨p, t, i, nm⟩
  cases p <;> cases t <;>
    first
      | (simp only [deleteCallFor, Option.some.injEq] at h1
         subst h1
         simp only [runDelete] at h2
         simp [rollbackResource, platformToEvent, h2])
      | exact Option.noConfusion h1

theorem rollback_fail_event_mem (a : Adapters) (msg : String) (tracked : List TrackedResource)
    (r : TrackedResource) (dc : DeleteCall) (e : String)
    (hr : r ∈ tracked) (h1 : deleteCallFor r = some dc) (h2 : runDelete a dc = .error e) :
    (⟨mkFailMsg r.platform r.type e, platformToEvent r.platform⟩ : ProgressEvent)
      ∈ (rollback a msg tracked).events := by
  have hmem := rollbackResource_fail_event a r dc e h1 h2
  have hex : ∃ x ∈ tracked,
      (⟨mkFailMsg r.platform r.type e, platformToEvent r.platform⟩ : ProgressEvent)
        ∈ (rollbackResource a x).1 :=
    ⟨r, hr, hmem⟩
  simp [rollback, List.mem_cons, List.mem_append, List.mem_flatMap, hex]

theorem failRun_fields (a : Adapters) (e : String) (t : List TrackedResource)
    (rv sv : Option EnvMap) (nu : Option String) :
    (failRun a e t rv sv nu).result.isOk = false
    ∧ (failRun a e t rv sv nu).appends = t
    ∧ (failRun a e t rv sv nu).rollbackDeletes = t.reverse.filterMap deleteCallFor
    ∧ (failRun a e t rv sv nu).finalTracker = [] := by
  refine ⟨rfl, rfl, ?_, rfl⟩
  exact rollback_deletes_eq a (if e = "" then "Unknown error occurred during deployment" else e) t

/-- Case analysis of one deployFullTrinity run: on failure the rollback
delete sequence is the reverse filter-map of the append ledger, every
appended resource has a delete call, the final tracker is always empty, and
on success the ledger holds exactly the four resources in pipeline order. -/
theorem trinity_run_cases (a : Adapters) (rp : String) (pn sn : Option String)
    (env : Option EnvMap) (prev : List TrackedResource) :
    ((deployFullTrinity a rp pn sn env prev).result.isOk = false →
      (deployFullTrinity a rp pn sn env prev).rollbackDeletes
        = (deployFullTrinity a rp pn sn env prev).appends.reverse.filterMap deleteCallFor)
    ∧ (∀ r ∈ (deployFullTrinity a rp pn sn env prev).appends, (deleteCallFor r).isSome = true)
    ∧ (deployFullTrinity a rp pn sn env prev).finalTracker = []
    ∧ ((deployFullTrinity a rp pn sn env prev).result.isOk = true →
      (deployFullTrinity a rp pn sn env prev).appends.map (fun r => (r.platform, r.type))
        = [(Platform.neon, ResourceType.project), (Platform.railway, ResourceType.project),
            (Platform.railway, ResourceType.service), (Platform.vercel, ResourceType.project)]) := by
  simp only [deployFullTrinity]
  split
  · simp only [failRun]
    refine ⟨fun _ => rollback_deletes_eq a _ _, ?_, rfl, fun h => Bool.noConfusion h⟩
    intro r hr
    exact absurd hr (List.not_mem_nil r)
  · split
    · simp only [failRun]
      refine ⟨fun _ => rollback_deletes_eq a _ _, ?_, rfl, fun h => Bool.noConfusion h⟩
      intro r hr
      exact absurd hr (List.not_mem_nil r)
    · split
      · simp only [failRun]
        refine ⟨fun _ => rollback_deletes_eq a _ _, ?_, rfl, fun h => Bool.noConfusion h⟩
        intro r hr
        exact absurd hr (List.not_mem_nil r)
      · split
        · simp only [failRun]
          refine ⟨fun _ => rollback_deletes_eq a _ _, ?_, rfl, fun h => Bool.noConfusion h⟩
          intro r hr
          exact absurd hr (List.not_mem_nil r)
        · split
          · simp only [failRun]
            refine ⟨fun _ => rollback_deletes_eq a _ _, ?_, rfl, fun h => Bool.noConfusion h⟩
            intro r hr
            rw [List.mem_singleton] at hr
            subst hr
            rfl
          · split
            · simp only [failRun]
              refine ⟨fun _ => rollback_deletes_eq a _ _, ?_, rfl, fun h => Bool.noConfusion h⟩
              intro r hr
              simp only [List.cons_append, List.nil_append, List.mem_cons,
                List.not_mem_nil, or_false] at hr
              rcases hr with rfl | rfl | rfl <;> rfl
            · refine ⟨fun h => Bool.noConfusion h, ?_, rfl, fun _ => rfl⟩
              intro r hr
              simp only [List.cons_append, List.nil_append, List.mem_cons,
                List.not_mem_nil, or_false] at hr
              rcases hr with rfl | rfl | rfl | rfl <;> rfl

/-! ## Claim theorems -/

/-- Claim C1: for every full-pipeline run that fails after at least one
resource was tracked, the rollback delete-call sequence is the exact reverse
of the creation sequence recorded before the failure: it is the reverse
filter-map of the ledger, every recorded resource contributes its delete
call, and the targeted identifiers are the recorded identifiers in reverse
order. -/
theorem trinity_C1 (a : Adapters) (rp : String) (pn sn : Option String) (env : Option EnvMap)
    (prev : List TrackedResource) (msg : String)
    (hfail : (deployFullTrinity a rp pn sn env prev).result = .error msg)
    (_hne : (deployFullTrinity a rp pn sn env prev).appends ≠ []) :
    (deployFullTrinity a rp pn sn env prev).rollbackDeletes
        = (deployFullTrinity a rp pn sn env prev).appends.reverse.filterMap deleteCallFor
    ∧ (∀ r ∈ (deployFullTrinity a rp pn sn env prev).appends, (deleteCallFor r).isSome = true)
    ∧ (deployFullTrinity a rp pn sn env prev).rollbackDeletes.map deleteCallId
        = (deployFullTrinity a rp pn sn env prev).appends.reverse.map TrackedResource.id := by
  have hc := trinity_run_cases a rp pn sn env prev
  have hOk : (deployFullTrinity a rp pn sn env prev).result.isOk = false := by
    rw [hfail]; rfl
  refine ⟨hc.1 hOk, hc.2.1, ?_⟩
  rw [hc.1 hOk]
  exact filterMap_deleteCallFor_ids _ (fun r hr => hc.2.1 r (List.mem_reverse.mp hr))

/-- Witness for C1: with the Vercel stage throwing, the run fails holding
three tracked resources and the reverse-order property holds there. -/
theorem trinity_C1_witness :
    vercelFailRun.result = .error
        ("Deployment failed: vercel exploded. " ++
          "Rollback completed - all created resources have been cleaned up.")
    ∧ vercelFailRun.appends ≠ []
    ∧ (vercelFailRun.rollbackDeletes
          = vercelFailRun.appends.reverse.filterMap deleteCallFor
      ∧ (∀ r ∈ vercelFailRun.appends, (deleteCallFor r).isSome = true)
      ∧ vercelFailRun.rollbackDeletes.map deleteCallId
          = vercelFailRun.appends.reverse.map TrackedResource.id) :=
  ⟨rfl, by decide,
    trinity_C1 vercelFailAdapters demoUrl none none none [] _ rfl (by decide)⟩

/-- Claim C3: every successful full-pipeline run appends exactly the
database project, the compute project, the compute service and the frontend
project to the Resource Tracker, in that order. -/
theorem trinity_C3 (a : Adapters) (rp : String) (pn sn : Option String) (env : Option EnvMap)
    (prev : List TrackedResource)
    (hok : (deployFullTrinity a rp pn sn env prev).result.isOk = true) :
    (deployFullTrinity a rp pn sn env prev).appends.map (fun r => (r.platform, r.type))
      = [(Platform.neon, ResourceType.project), (Platform.railway, ResourceType.project),
          (Platform.railway, ResourceType.service), (Platform.vercel, ResourceType.project)] :=
  (trinity_run_cases a rp pn sn env prev).2.2.2 hok

/-- Witness for C3: the all-success concrete run. -/
theorem trinity_C3_witness :
    okRun.result.isOk = true
    ∧ okRun.appends.map (fun r => (r.platform, r.type))
        = [(Platform.neon, ResourceType.project), (Platform.railway, ResourceType.project),
            (Platform.railway, ResourceType.service), (Platform.vercel, ResourceType.project)] :=
  ⟨rfl, trinity_C3 okAdapters demoUrl none none none [] rfl⟩

/-- Claim C4: the tracker is cleared at the start of every run (the run is
insensitive to whatever tracker contents a previous run left) and the final
tracker contents are empty in every terminal state, success or
post-rollback failure. -/
theorem trinity_C4 (a : Adapters) (rp : String) (pn sn : Option String) (env : Option EnvMap)
    (prev : List TrackedResource) :
    deployFullTrinity a rp pn sn env prev = deployFullTrinity a rp pn sn env []
    ∧ (deployFullTrinity a rp pn sn env prev).finalTracker = [] :=
  ⟨rfl, (trinity_run_cases a rp pn sn env prev).2.2.1⟩

/-- Claim C5: rollback walks every tracked resource even when individual
deletes throw (the delete-call sequence equals the oracle-independent
reverse filter-map of the tracker), a failing delete yields an error-level
progress event naming the platform and kind of the resource, the tracker is
cleared afterwards, and the final emitted event is the system rollback
completion event. -/
theorem rollback_C5 (a : Adapters) (msg : String) (tracked : List TrackedResource) :
    (rollback a msg tracked).deletes = tracked.reverse.filterMap deleteCallFor
    ∧ (rollback a msg tracked).tracker = []
    ∧ (rollback a msg tracked).events.getLast?
        = some ⟨"Rollback completed. All resources cleaned up.", .system⟩
    ∧ (∀ r ∈ tracked, ∀ dc : DeleteCall, deleteCallFor r = some dc →
        ∀ e : String, runDelete a dc = .error e →
          (⟨mkFailMsg r.platform r.type e, platformToEvent r.platform⟩ : ProgressEvent)
            ∈ (rollback a msg tracked).events) :=
  ⟨rollback_deletes_eq a msg tracked, rollback_tracker_empty a msg tracked,
    rollback_last_event a msg tracked,
    fun r hr dc h1 e h2 => rollback_fail_event_mem a msg tracked r dc e hr h1 h2⟩

/-- Witness for C5: a one-resource tracker whose delete throws; the failure
event is emitted and the walk still completes. -/
theorem rollback_C5_witness :
    ((⟨.neon, .project, "neon-p1", some "shop-db"⟩ : TrackedResource)
        ∈ [(⟨.neon, .project, "neon-p1", some "shop-db"⟩ : TrackedResource)])
    ∧ deleteCallFor ⟨.neon, .project, "neon-p1", some "shop-db"⟩
        = some (.neonDeleteProject "neon-p1")
    ∧ runDelete rollbackFailAdapters (.neonDeleteProject "neon-p1") = .error "permission denied"
    ∧ (⟨mkFailMsg .neon .project "permission denied", .neon⟩ : ProgressEvent)
        ∈ (rollback rollbackFailAdapters "boom"
            [⟨.neon, .project, "neon-p1", some "shop-db"⟩]).events :=
  ⟨by decide, rfl, rfl,
    (rollback_C5 rollbackFailAdapters "boom"
        [⟨.neon, .project, "neon-p1", some "shop-db"⟩]).2.2.2
      ⟨.neon, .project, "neon-p1", some "shop-db"⟩ (by decide)
      (.neonDeleteProject "neon-p1") rfl "permission denied" rfl⟩

theorem envLookup_append (xs ys : EnvMap) (k : String) :
    envLookup (xs ++ ys) k
      = match envLookup ys k with
        | some w => some w
        | none => envLookup xs k := by
  induction xs with
  | nil =>
    rw [List.nil_append]
    cases envLookup ys k <;> rfl
  | cons p xs ih =>
    rcases p with ⟨k2, v⟩
    rw [List.cons_append]
    show (match envLookup (xs ++ ys) k with
          | some w => some w
          | none => if k2 = k then some v else none) = _
    rw [ih]
    cases envLookup ys k <;> cases hx : envLookup xs k <;> simp [envLookup, hx]

/-- Claim C2 (amended): the environment mapping handed to the compute-stage
adapter always holds the key DATABASE_URL; its value is the exact connection
string the database stage returned unless the caller supplied an entry for
DATABASE_URL, in which case the caller-supplied value replaces the
propagated one (the caller mapping is spread after the propagated entry). -/
theorem trinity_C2_amended (a : Adapters) (rp : String) (pn sn : Option String)
    (env : Option EnvMap) (prev : List TrackedResource) (m : EnvMap) (u : String) :
    (deployFullTrinity a rp pn sn env prev).railwayVars = some m →
    (deployFullTrinity a rp pn sn env prev).neonUrl = some u →
    envLookup m "DATABASE_URL"
      = some (match envLookup (optEnv env) "DATABASE_URL" with
              | some w => w
              | none => u) := by
  simp only [deployFullTrinity]
  split
  · intro h1 _; exact Option.noConfusion h1
  · split
    · intro h1 _; exact Option.noConfusion h1
    · split
      · intro h1 _; exact Option.noConfusion h1
      · split
        · intro h1 _; exact Option.noConfusion h1
        · split
          · intro h1 h2
            simp only [failRun, Option.some.injEq] at h1 h2
            subst h1; subst h2
            cases hdb : envLookup (optEnv env) "DATABASE_URL" with
            | none => simp [envLookup, hdb]
            | some w => simp [envLookup, hdb]
          · split
            · intro h1 h2
              simp only [failRun, Option.some.injEq] at h1 h2
              subst h1; subst h2
              cases hdb : envLookup (optEnv env) "DATABASE_URL" with
              | none => simp [envLookup, hdb]
              | some w => simp [envLookup, hdb]
            · intro h1 h2
              simp only [Option.some.injEq] at h1 h2
              subst h1; subst h2
              cases hdb : envLookup (optEnv env) "DATABASE_URL" with
              | none => simp [envLookup, hdb]
              | some w => simp [envLookup, hdb]

/-- Counterexample for C2 as frozen: with a caller-supplied DATABASE_URL
entry, the mapping handed to provisionBackend binds DATABASE_URL to the
caller value, not to the connection string the database stage returned, so
the caller-supplied value does override the propagated one. -/
theorem trinity_C2_cex :
    callerDbRun.neonUrl = some "postgres://neon-host/db"
    ∧ callerDbRun.railwayVars.map (fun m => envLookup m "DATABASE_URL")
        = some (some "postgres://caller-url")
    ∧ "postgres://caller-url" ≠ "postgres://neon-host/db" :=
  ⟨rfl, rfl, by decide⟩

/-- Witness for C2 (amended) at the caller-override run. -/
theorem trinity_C2_witness :
    callerDbRun.railwayVars
        = some [("DATABASE_URL", "postgres://neon-host/db"),
            ("DATABASE_URL", "postgres://caller-url")]
    ∧ callerDbRun.neonUrl = some "postgres://neon-host/db"
    ∧ envLookup [("DATABASE_URL", "postgres://neon-host/db"),
          ("DATABASE_URL", "postgres://caller-url")] "DATABASE_URL"
        = some (match envLookup (optEnv (some [("DATABASE_URL", "postgres://caller-url")]))
                  "DATABASE_URL" with
                | some w => w
                | none => "postgres://neon-host/db") :=
  ⟨rfl, rfl,
    trinity_C2_amended okAdapters demoUrl none none
      (some [("DATABASE_URL", "postgres://caller-url")]) [] _ _ rfl rfl⟩


theorem envLookup_dbkey (t : EnvMap) (u : String) :
    envLookup (("DATABASE_URL", u) :: t) "DATABASE_URL"
      = some (match envLookup t "DATABASE_URL" with
              | some w => w
              | none => u) := by
  cases hdb : envLookup t "DATABASE_URL" with
  | none => simp [envLookup, hdb]
  | some w => simp [envLookup, hdb]

theorem railwayProvisionBackend_setArg (a : Adapters) (pn sn repo branch : String)
    (vars : Option EnvMap) (strm : Bool) (m : EnvMap) :
    (railwayProvisionBackend a pn sn repo branch vars strm).setVariablesArg = some m →
    m = (if strm then optimizeForStreamlit (optEnv vars) else optEnv vars) := by
  simp only [railwayProvisionBackend]
  split
  · intro h; exact Option.noConfusion h
  · split
    · intro h; exact Option.noConfusion h
    · generalize (if strm then optimizeForStreamlit (optEnv vars) else optEnv vars) = g
      split
      · intro h; exact Option.noConfusion h
      · split
        · intro h; simp only [Option.some.injEq] at h; exact h.symm
        · intro h; simp only [Option.some.injEq] at h; exact h.symm

/-- The mapping handed to Railway setVariables by a full-pipeline run is the
merged compute-stage mapping, Streamlit-optimized exactly when the
classification carried the flag. -/
theorem trinity_setArg (a : Adapters) (rp : String) (pn sn : Option String)
    (env : Option EnvMap) (prev : List TrackedResource) (b : ProjectBlueprint)
    (m : EnvMap) (u : String) :
    a.scanRepository rp = .ok b →
    (deployFullTrinity a rp pn sn env prev).setVariablesArg = some m →
    (deployFullTrinity a rp pn sn env prev).neonUrl = some u →
    m = (if blueprintIsStreamlit b
        then optimizeForStreamlit (("DATABASE_URL", u) :: optEnv env)
        else ("DATABASE_URL", u) :: optEnv env) := by
  intro hscan
  simp only [deployFullTrinity, hscan]
  split
  · intro h1 _; exact Option.noConfusion h1
  · split
    · intro h1 _; exact Option.noConfusion h1
    · split
      · intro h1 _; exact Option.noConfusion h1
      · split
        · intro h1 h2
          simp only [failRun, Option.some.injEq] at h1 h2
          subst h2
          exact railwayProvisionBackend_setArg a _ _ _ _ _ _ _ h1
        · split
          · intro h1 h2
            simp only [failRun, Option.some.injEq] at h1 h2
            subst h2
            exact railwayProvisionBackend_setArg a _ _ _ _ _ _ _ h1
          · intro h1 h2
            simp only [Option.some.injEq] at h1 h2
            subst h2
            exact railwayProvisionBackend_setArg a _ _ _ _ _ _ _ h1

/-- Claim C7 (amended): in a full-pipeline run classified with the Streamlit
flag, the mapping handed to setVariables binds the three fixed optimization
keys to their fixed values, and binds DATABASE_URL to the connection string
the database stage returned unless the caller supplied a DATABASE_URL entry,
in which case the caller value replaces the propagated one. -/
theorem trinity_C7_amended (a : Adapters) (rp : String) (pn sn : Option String)
    (env : Option EnvMap) (prev : List TrackedResource) (b : ProjectBlueprint)
    (m : EnvMap) (u : String)
    (hscan : a.scanRepository rp = .ok b)
    (hstrm : blueprintIsStreamlit b = true)
    (h1 : (deployFullTrinity a rp pn sn env prev).setVariablesArg = some m)
    (h2 : (deployFullTrinity a rp pn sn env prev).neonUrl = some u) :
    envLookup m "PORT" = some "8501"
    ∧ envLookup m "STREAMLIT_SERVER_PORT" = some "8501"
    ∧ envLookup m "STREAMLIT_SERVER_ADDRESS" = some "0.0.0.0"
    ∧ envLookup m "DATABASE_URL"
        = some (match envLookup (optEnv env) "DATABASE_URL" with
                | some w => w
                | none => u) := by
  have hm := trinity_setArg a rp pn sn env prev b m u hscan h1 h2
  rw [hstrm, if_pos rfl] at hm
  subst hm
  simp only [optimizeForStreamlit]
  refine ⟨?_, ?_, ?_, ?_⟩
  · rw [envLookup_append]; rfl
  · rw [envLookup_append]; rfl
  · rw [envLookup_append]; rfl
  · rw [envLookup_append]
    show envLookup (("DATABASE_URL", u) :: optEnv env) "DATABASE_URL" = _
    exact envLookup_dbkey (optEnv env) u

/-- Counterexample for C7 as frozen: in a Streamlit-flagged run whose caller
supplies a DATABASE_URL entry, the mapping handed to setVariables binds
DATABASE_URL to the caller value, not to the connection string the database
stage returned, so the propagated entry does not survive unchanged. -/
theorem trinity_C7_cex :
    okAdapters.scanRepository demoUrl
        = .ok ⟨.backend, demoUrl, 90, ["requirements.txt"], some ⟨some "streamlit", some true⟩⟩
    ∧ blueprintIsStreamlit
        ⟨.backend, demoUrl, 90, ["requirements.txt"], some ⟨some "streamlit", some true⟩⟩ = true
    ∧ callerDbRun.neonUrl = some "postgres://neon-host/db"
    ∧ callerDbRun.setVariablesArg.map (fun m => envLookup m "DATABASE_URL")
        = some (some "postgres://caller-url")
    ∧ "postgres://caller-url" ≠ "postgres://neon-host/db" :=
  ⟨rfl, rfl, rfl, rfl, by decide⟩

/-- Witness for C7 (amended) at the all-success Streamlit run with no
caller-supplied variables. -/
theorem trinity_C7_witness :
    okAdapters.scanRepository demoUrl
        = .ok ⟨.backend, demoUrl, 90, ["requirements.txt"], some ⟨some "streamlit", some true⟩⟩
    ∧ blueprintIsStreamlit
        ⟨.backend, demoUrl, 90, ["requirements.txt"], some ⟨some "streamlit", some true⟩⟩ = true
    ∧ okRun.setVariablesArg
        = some [("DATABASE_URL", "postgres://neon-host/db"), ("PORT", "8501"),
            ("STREAMLIT_SERVER_PORT", "8501"), ("STREAMLIT_SERVER_ADDRESS", "0.0.0.0")]
    ∧ okRun.neonUrl = some "postgres://neon-host/db"
    ∧ (envLookup [("DATABASE_URL", "postgres://neon-host/db"), ("PORT", "8501"),
          ("STREAMLIT_SERVER_PORT", "8501"), ("STREAMLIT_SERVER_ADDRESS", "0.0.0.0")] "PORT"
          = some "8501"
      ∧ envLookup [("DATABASE_URL", "postgres://neon-host/db"), ("PORT", "8501"),
          ("STREAMLIT_SERVER_PORT", "8501"), ("STREAMLIT_SERVER_ADDRESS", "0.0.0.0")]
          "STREAMLIT_SERVER_PORT" = some "8501"
      ∧ envLookup [("DATABASE_URL", "postgres://neon-host/db"), ("PORT", "8501"),
          ("STREAMLIT_SERVER_PORT", "8501"), ("STREAMLIT_SERVER_ADDRESS", "0.0.0.0")]
          "STREAMLIT_SERVER_ADDRESS" = some "0.0.0.0"
      ∧ envLookup [("DATABASE_URL", "postgres://neon-host/db"), ("PORT", "8501"),
          ("STREAMLIT_SERVER_PORT", "8501"), ("STREAMLIT_SERVER_ADDRESS", "0.0.0.0")]
          "DATABASE_URL"
          = some (match envLookup (optEnv (none : Option EnvMap)) "DATABASE_URL" with
                  | some w => w
                  | none => "postgres://neon-host/db")) :=
  ⟨rfl, rfl, rfl, rfl,
    trinity_C7_amended okAdapters demoUrl none none none []
      ⟨.backend, demoUrl, 90, ["requirements.txt"], some ⟨some "streamlit", some true⟩⟩
      _ _ rfl rfl rfl rfl⟩

/-- Claim C10: when the Streamlit optimization applies, the three fixed
optimization variables are merged last, so the values handed to setVariables
for PORT, STREAMLIT_SERVER_PORT and STREAMLIT_SERVER_ADDRESS are the fixed
ones for every caller-supplied mapping, including mappings that bind those
keys themselves. -/
theorem streamlit_C10 (a : Adapters) (pn sn repo branch : String) (vars : Option EnvMap)
    (p s : IdName)
    (hp : a.railwayCreateProject pn = .ok p)
    (hs : a.railwayCreateService p.id sn repo branch = .ok s) :
    (railwayProvisionBackend a pn sn repo branch vars true).setVariablesArg
        = some (optimizeForStreamlit (optEnv vars))
    ∧ envLookup (optimizeForStreamlit (optEnv vars)) "PORT" = some "8501"
    ∧ envLookup (optimizeForStreamlit (optEnv vars)) "STREAMLIT_SERVER_PORT" = some "8501"
    ∧ envLookup (optimizeForStreamlit (optEnv vars)) "STREAMLIT_SERVER_ADDRESS"
        = some "0.0.0.0" := by
  have hne : (optimizeForStreamlit (optEnv vars)).isEmpty = false := by
    cases optEnv vars with
    | nil => rfl
    | cons x xs => rfl
  refine ⟨?_, ?_, ?_, ?_⟩
  · simp only [railwayProvisionBackend, hp, hs]
    rw [if_pos trivial, hne, if_neg (by simp)]
    split <;> rfl
  · simp only [optimizeForStreamlit]; rw [envLookup_append]; rfl
  · simp only [optimizeForStreamlit]; rw [envLookup_append]; rfl
  · simp only [optimizeForStreamlit]; rw [envLookup_append]; rfl

/-- Witness for C10 with a caller mapping that itself binds PORT and
STREAMLIT_SERVER_ADDRESS. -/
theorem streamlit_C10_witness :
    okAdapters.railwayCreateProject "shop-backend" = .ok ⟨"rail-p1", "shop-backend"⟩
    ∧ okAdapters.railwayCreateService "rail-p1" "shop" "acme/shop" "main" = .ok ⟨"rail-s1", "shop"⟩
    ∧ ((railwayProvisionBackend okAdapters "shop-backend" "shop" "acme/shop" "main"
          (some [("PORT", "3000"), ("STREAMLIT_SERVER_ADDRESS", "127.0.0.1")])
          true).setVariablesArg
        = some (optimizeForStreamlit
            (optEnv (some [("PORT", "3000"), ("STREAMLIT_SERVER_ADDRESS", "127.0.0.1")])))
      ∧ envLookup (optimizeForStreamlit
            (optEnv (some [("PORT", "3000"), ("STREAMLIT_SERVER_ADDRESS", "127.0.0.1")]))) "PORT"
          = some "8501"
      ∧ envLookup (optimizeForStreamlit
            (optEnv (some [("PORT", "3000"), ("STREAMLIT_SERVER_ADDRESS", "127.0.0.1")])))
          "STREAMLIT_SERVER_PORT" = some "8501"
      ∧ envLookup (optimizeForStreamlit
            (optEnv (some [("PORT", "3000"), ("STREAMLIT_SERVER_ADDRESS", "127.0.0.1")])))
          "STREAMLIT_SERVER_ADDRESS" = some "0.0.0.0") :=
  ⟨rfl, rfl,
    streamlit_C10 okAdapters "shop-backend" "shop" "acme/shop" "main"
      (some [("PORT", "3000"), ("STREAMLIT_SERVER_ADDRESS", "127.0.0.1")])
      ⟨"rail-p1", "shop-backend"⟩ ⟨"rail-s1", "shop"⟩ rfl rfl⟩


/-- Claim C6 (amended): when any stage of the full pipeline throws, the
orchestrator surfaces its error only after the rollback walk over the whole
ledger (the delete sequence covers the recorded resources in reverse and the
rollback event stream ends with the completion event), and the surfaced
error carries the original failure message inside the fixed sentence
"Deployment failed: ... Rollback completed - all created resources have been
cleaned up." regardless of whether individual deletes failed; resources that
could not be removed are reported only through progress events, never in the
thrown error. -/
theorem trinity_C6_amended (a : Adapters) (rp : String) (pn sn : Option String)
    (env : Option EnvMap) (prev : List TrackedResource) (msg : String) :
    (deployFullTrinity a rp pn sn env prev).result = .error msg →
    (∃ e, msg = "Deployment failed: " ++ e ++
        ". Rollback completed - all created resources have been cleaned up.")
    ∧ (deployFullTrinity a rp pn sn env prev).rollbackEvents.getLast?
        = some ⟨"Rollback completed. All resources cleaned up.", .system⟩
    ∧ (deployFullTrinity a rp pn sn env prev).rollbackDeletes
        = (deployFullTrinity a rp pn sn env prev).appends.reverse.filterMap deleteCallFor := by
  simp only [deployFullTrinity]
  split
  · intro h
    simp only [failRun, Except.error.injEq] at h
    subst h
    simp only [failRun]
    exact ⟨⟨_, rfl⟩, rollback_last_event a _ _, rollback_deletes_eq a _ _⟩
  · split
    · intro h
      simp only [failRun, Except.error.injEq] at h
      subst h
      simp only [failRun]
      exact ⟨⟨_, rfl⟩, rollback_last_event a _ _, rollback_deletes_eq a _ _⟩
    · split
      · intro h
        simp only [failRun, Except.error.injEq] at h
        subst h
        simp only [failRun]
        exact ⟨⟨_, rfl⟩, rollback_last_event a _ _, rollback_deletes_eq a _ _⟩
      · split
        · intro h
          simp only [failRun, Except.error.injEq] at h
          subst h
          simp only [failRun]
          exact ⟨⟨_, rfl⟩, rollback_last_event a _ _, rollback_deletes_eq a _ _⟩
        · split
          · intro h
            simp only [failRun, Except.error.injEq] at h
            subst h
            simp only [failRun]
            exact ⟨⟨_, rfl⟩, rollback_last_event a _ _, rollback_deletes_eq a _ _⟩
          · split
            · intro h
              simp only [failRun, Except.error.injEq] at h
              subst h
              simp only [failRun]
              exact ⟨⟨_, rfl⟩, rollback_last_event a _ _, rollback_deletes_eq a _ _⟩
            · intro h
              exact Except.noConfusion h

/-- Counterexample for C6 as frozen: in a run where the Railway stage throws
and the Neon delete also throws during rollback, the surfaced error still
claims every resource was cleaned up and names neither the unremovable
project id nor its display name; the failed deletion is visible only in the
progress events. -/
theorem trinity_C6_cex :
    rollbackFailRun.result = .error
        ("Deployment failed: boom. " ++
          "Rollback completed - all created resources have been cleaned up.")
    ∧ runDelete rollbackFailAdapters (.neonDeleteProject "neon-p1") = .error "permission denied"
    ∧ (⟨mkFailMsg .neon .project "permission denied", .neon⟩ : ProgressEvent)
        ∈ rollbackFailRun.rollbackEvents
    ∧ containsSub "neon-p1".data
        ("Deployment failed: boom. " ++
          "Rollback completed - all created resources have been cleaned up.").data = false
    ∧ containsSub "shop-db".data
        ("Deployment failed: boom. " ++
          "Rollback completed - all created resources have been cleaned up.").data = false :=
  ⟨rfl, rfl, by decide, by decide, by decide⟩

/-- Witness for C6 (amended) at the failing concrete run. -/
theorem trinity_C6_witness :
    rollbackFailRun.result = .error
        ("Deployment failed: boom. " ++
          "Rollback completed - all created resources have been cleaned up.")
    ∧ ((∃ e, ("Deployment failed: boom. " ++
          "Rollback completed - all created resources have been cleaned up.")
          = "Deployment failed: " ++ e ++
            ". Rollback completed - all created resources have been cleaned up.")
      ∧ rollbackFailRun.rollbackEvents.getLast?
          = some ⟨"Rollback completed. All resources cleaned up.", .system⟩
      ∧ rollbackFailRun.rollbackDeletes
          = rollbackFailRun.appends.reverse.filterMap deleteCallFor) :=
  ⟨rfl, trinity_C6_amended rollbackFailAdapters demoUrl none none none [] _ rfl⟩


theorem neonProvisionDatabase_calls (a : Adapters) (n : String) :
    ∀ c ∈ (neonProvisionDatabase a n).calls, adapterCallPlatform c = .neon := by
  intro c hc
  simp only [neonProvisionDatabase] at hc
  split at hc
  · simp only [List.mem_singleton] at hc; subst hc; rfl
  · split at hc <;>
      (simp only [List.mem_cons, List.not_mem_nil, or_false] at hc
       rcases hc with rfl | rfl <;> rfl)

theorem railwayProvisionBackend_calls (a : Adapters) (pn sn repo branch : String)
    (vars : Option EnvMap) (strm : Bool) :
    ∀ c ∈ (railwayProvisionBackend a pn sn repo branch vars strm).calls,
      adapterCallPlatform c = .railway := by
  intro c hc
  simp only [railwayProvisionBackend] at hc
  split at hc
  · simp only [List.mem_singleton] at hc; subst hc; rfl
  · split at hc
    · simp only [List.mem_cons, List.not_mem_nil, or_false] at hc
      rcases hc with rfl | rfl <;> rfl
    · split at hc
      all_goals split at hc
      all_goals try split at hc
      all_goals simp only [List.mem_cons, List.not_mem_nil, or_false] at hc
      all_goals rcases hc with rfl | rfl | rfl <;> rfl

theorem vercelGetUrlStep_calls (a : Adapters) (project : IdName) (calls : List AdapterCall)
    (hca : ∀ c ∈ calls, adapterCallPlatform c = .vercel) :
    ∀ c ∈ (vercelGetUrlStep a project calls).calls, adapterCallPlatform c = .vercel := by
  intro c hc
  simp only [vercelGetUrlStep] at hc
  split at hc <;>
    (simp only [List.mem_append, List.mem_singleton] at hc
     rcases hc with hc | rfl
     · exact hca c hc
     · rfl)

theorem vercelProvisionFrontend_calls (a : Adapters) (pn : String) (repo : Option String)
    (env : Option EnvMap) :
    ∀ c ∈ (vercelProvisionFrontend a pn repo env).calls, adapterCallPlatform c = .vercel := by
  intro c hc
  simp only [vercelProvisionFrontend] at hc
  split at hc
  · simp only [List.mem_singleton] at hc; subst hc; rfl
  · split at hc
    · refine vercelGetUrlStep_calls a _ _ ?_ c hc
      intro c2 hc2
      simp only [List.mem_singleton] at hc2; subst hc2; rfl
    · split at hc
      · simp only [List.cons_append, List.nil_append, List.mem_cons,
          List.not_mem_nil, or_false] at hc
        rcases hc with rfl | rfl <;> rfl
      · refine vercelGetUrlStep_calls a _ _ ?_ c hc
        intro c2 hc2
        simp only [List.cons_append, List.nil_append, List.mem_cons,
          List.not_mem_nil, or_false] at hc2
        rcases hc2 with rfl | rfl <;> rfl

theorem deployToRailway_calls (a : Adapters) (rp : String) (b : ProjectBlueprint)
    (pn sn : Option String) (env : Option EnvMap) :
    ∀ c ∈ (deployToRailway a rp b pn sn env).1, adapterCallPlatform c = .railway := by
  intro c hc
  simp only [deployToRailway] at hc
  split at hc
  · exact absurd hc (List.not_mem_nil c)
  · exact railwayProvisionBackend_calls a _ _ _ _ _ _ c hc

theorem deployToVercel_calls (a : Adapters) (rp : String) (pn : Option String)
    (env : Option EnvMap) :
    ∀ c ∈ (deployToVercel a rp pn env).1, adapterCallPlatform c = .vercel := by
  intro c hc
  simp only [deployToVercel] at hc
  split at hc
  · exact absurd hc (List.not_mem_nil c)
  · exact vercelProvisionFrontend_calls a _ _ _ c hc

theorem deployToNeon_calls (a : Adapters) (rp : String) (pn : Option String) :
    ∀ c ∈ (deployToNeon a rp pn).1, adapterCallPlatform c = .neon := by
  intro c hc
  simp only [deployToNeon] at hc
  exact neonProvisionDatabase_calls a _ c hc

theorem neonProvisionDatabase_calls_ne (a : Adapters) (n : String) :
    (neonProvisionDatabase a n).calls ≠ [] := by
  simp only [neonProvisionDatabase]
  split
  · simp
  · split <;> simp

theorem railwayProvisionBackend_calls_ne (a : Adapters) (pn sn repo branch : String)
    (vars : Option EnvMap) (strm : Bool) :
    (railwayProvisionBackend a pn sn repo branch vars strm).calls ≠ [] := by
  simp only [railwayProvisionBackend]
  split
  · simp
  · split
    · simp
    · split
      all_goals split
      all_goals try split
      all_goals simp

theorem vercelProvisionFrontend_calls_ne (a : Adapters) (pn : String) (repo : Option String)
    (env : Option EnvMap) :
    (vercelProvisionFrontend a pn repo env).calls ≠ [] := by
  simp only [vercelProvisionFrontend]
  split
  · simp
  · split
    · simp only [vercelGetUrlStep]
      split <;> simp
    · split
      · simp
      · simp only [vercelGetUrlStep]
        split <;> simp

/-- Claim C9: in single-platform mode the orchestrator routes on the
classified category alone: a backend target only ever reaches the compute
platform adapter, a frontend target only the frontend platform, a database
target only the database platform (and the adapter is reached whenever the
mode succeeds); an unknown category raises the terminal cannot-deploy error
with no adapter call at all. -/
theorem deploy_C9 (a : Adapters) (rp : String) (pn sn : Option String) (env : Option EnvMap)
    (b : ProjectBlueprint) (hscan : a.scanRepository rp = .ok b) :
    (b.type = .backend →
        (∀ c ∈ (deploy a rp pn sn env).1, adapterCallPlatform c = .railway)
        ∧ ((deploy a rp pn sn env).2.isOk = true → (deploy a rp pn sn env).1 ≠ []))
    ∧ (b.type = .frontend →
        (∀ c ∈ (deploy a rp pn sn env).1, adapterCallPlatform c = .vercel)
        ∧ ((deploy a rp pn sn env).2.isOk = true → (deploy a rp pn sn env).1 ≠ []))
    ∧ (b.type = .database →
        (∀ c ∈ (deploy a rp pn sn env).1, adapterCallPlatform c = .neon)
        ∧ ((deploy a rp pn sn env).2.isOk = true → (deploy a rp pn sn env).1 ≠ []))
    ∧ (b.type = .unknown →
        (deploy a rp pn sn env).1 = []
        ∧ (deploy a rp pn sn env).2 = .error "Cannot deploy project of type: unknown") := by
  simp only [deploy, hscan]
  cases b.type
  · refine ⟨fun h => ProjectType.noConfusion h, fun _ => ⟨deployToVercel_calls a rp pn env, ?_⟩,
      fun h => ProjectType.noConfusion h, fun h => ProjectType.noConfusion h⟩
    simp only [deployToVercel]
    split
    · intro hok; exact Bool.noConfusion hok
    · intro _; exact vercelProvisionFrontend_calls_ne a _ _ _
  · refine ⟨fun _ => ⟨deployToRailway_calls a rp b pn sn env, ?_⟩,
      fun h => ProjectType.noConfusion h, fun h => ProjectType.noConfusion h,
      fun h => ProjectType.noConfusion h⟩
    simp only [deployToRailway]
    split
    · intro hok; exact Bool.noConfusion hok
    · intro _; exact railwayProvisionBackend_calls_ne a _ _ _ _ _ _
  · refine ⟨fun h => ProjectType.noConfusion h, fun h => ProjectType.noConfusion h,
      fun _ => ⟨deployToNeon_calls a rp pn, ?_⟩, fun h => ProjectType.noConfusion h⟩
    simp only [deployToNeon]
    intro _
    exact neonProvisionDatabase_calls_ne a _
  · exact ⟨fun h => ProjectType.noConfusion h, fun h => ProjectType.noConfusion h,
      fun h => ProjectType.noConfusion h, fun _ => ⟨rfl, rfl⟩⟩

/-- Witness for C9: the concrete classifier reports a backend target and the
routed calls are all Railway calls. -/
theorem deploy_C9_witness :
    okAdapters.scanRepository demoUrl
        = .ok ⟨.backend, demoUrl, 90, ["requirements.txt"], some ⟨some "streamlit", some true⟩⟩
    ∧ ((ProjectType.backend = ProjectType.backend →
        (∀ c ∈ (deploy okAdapters demoUrl none none none).1, adapterCallPlatform c = .railway)
        ∧ ((deploy okAdapters demoUrl none none none).2.isOk = true →
            (deploy okAdapters demoUrl none none none).1 ≠ []))) :=
  ⟨rfl, ((deploy_C9 okAdapters demoUrl none none none
      ⟨.backend, demoUrl, 90, ["requirements.txt"], some ⟨some "streamlit", some true⟩⟩
      rfl).1)⟩


theorem isPrefixOf_append_left (p x y : List Char) (h : List.isPrefixOf p x = true) :
    List.isPrefixOf p (x ++ y) = true := by
  rw [List.isPrefixOf_iff_prefix] at h ⊢
  exact h.trans (List.prefix_append x y)

theorem isPrefixOf_append_self (p l : List Char) : List.isPrefixOf p (p ++ l) = true := by
  rw [List.isPrefixOf_iff_prefix]
  exact List.prefix_append p l

theorem endsWith_append_self (s suf : List Char) : endsWithL (s ++ suf) suf = true := by
  unfold endsWithL startsWithL
  rw [List.reverse_append]
  exact isPrefixOf_append_self suf.reverse s.reverse

theorem endsWith_append_left (pre s suf : List Char) (h : endsWithL s suf = true) :
    endsWithL (pre ++ s) suf = true := by
  unfold endsWithL startsWithL at h ⊢
  rw [List.reverse_append]
  exact isPrefixOf_append_left _ _ _ h

theorem endsWith_dotGit_slash (xs : List Char) : endsWithL (xs ++ dotGitL) slashL = false := by
  unfold endsWithL startsWithL slashL dotGitL
  rw [List.reverse_append]
  rfl

theorem splitLastSlash_eq_none (ys : List Char) (h : '/' ∉ ys) : splitLastSlash ys = none := by
  induction ys with
  | nil => rfl
  | cons c rest ih =>
    have hc : ¬c = '/' := fun hc => h (hc ▸ List.mem_cons_self c rest)
    simp only [splitLastSlash, ih (fun hm => h (List.mem_cons_of_mem c hm)), if_neg hc]

theorem not_mem_of_splitLastSlash_none (l : List Char) (h : splitLastSlash l = none) :
    '/' ∉ l := by
  induction l with
  | nil => simp
  | cons c rest ih =>
    simp only [splitLastSlash] at h
    cases h2 : splitLastSlash rest with
    | some p =>
      rcases p with ⟨a, b⟩
      rw [h2] at h
      exact Option.noConfusion h
    | none =>
      rw [h2] at h
      by_cases hc : c = '/'
      · rw [if_pos hc] at h
        exact Option.noConfusion h
      · intro hm
        rcases List.mem_cons.mp hm with he | hm2
        · exact hc he.symm
        · exact ih h2 hm2

theorem splitLastSlash_append_some (xs ys : List Char) (hy : '/' ∉ ys) :
    ∀ (a b : List Char), splitLastSlash xs = some (a, b) →
      splitLastSlash (xs ++ ys) = some (a, b ++ ys) := by
  induction xs with
  | nil =>
    intro a b h
    exact Option.noConfusion h
  | cons c rest ih =>
    intro a b h
    simp only [splitLastSlash] at h
    rw [List.cons_append]
    simp only [splitLastSlash]
    cases h2 : splitLastSlash rest with
    | some p =>
      rcases p with ⟨a2, b2⟩
      rw [h2] at h
      simp only [Option.some.injEq, Prod.mk.injEq] at h
      rcases h with ⟨ha, hb⟩
      subst ha
      subst hb
      rw [ih a2 b2 h2]
    | none =>
      rw [h2] at h
      have hnone : splitLastSlash (rest ++ ys) = none := by
        apply splitLastSlash_eq_none
        intro hm
        rcases List.mem_append.mp hm with hm1 | hm2
        · exact not_mem_of_splitLastSlash_none rest h2 hm1
        · exact hy hm2
      rw [hnone]
      by_cases hc : c = '/'
      · rw [if_pos hc] at h
        simp only [Option.some.injEq, Prod.mk.injEq] at h
        rcases h with ⟨ha, hb⟩
        subst ha
        subst hb
        rw [if_pos hc]
      · rw [if_neg hc] at h
        exact Option.noConfusion h

theorem splitLastSlash_decomp : ∀ (l A seg : List Char),
    splitLastSlash l = some (A, seg) → l = A ++ '/' :: seg := by
  intro l
  induction l with
  | nil =>
    intro A seg h
    exact Option.noConfusion h
  | cons c rest ih =>
    intro A seg h
    simp only [splitLastSlash] at h
    cases h2 : splitLastSlash rest with
    | some p =>
      rcases p with ⟨a, b⟩
      rw [h2] at h
      simp only [Option.some.injEq, Prod.mk.injEq] at h
      rcases h with ⟨ha, hb⟩
      subst ha
      subst hb
      rw [List.cons_append, ← ih a b h2]
    | none =>
      rw [h2] at h
      by_cases hc : c = '/'
      · rw [if_pos hc] at h
        simp only [Option.some.injEq, Prod.mk.injEq] at h
        rcases h with ⟨ha, hb⟩
        subst ha
        subst hb
        rw [List.nil_append, hc]
      · rw [if_neg hc] at h
        exact Option.noConfusion h

/-- Appending the source-control suffix to a reference that parses, does not
end with a slash and does not already end with the suffix leaves the
extracted owner/repo unchanged. -/
theorem extract_append_git (u : String) (r : String)
    (hx : extractGitHubRepo u = some r)
    (h1 : endsWithL u.data slashL = false)
    (h2 : endsWithL u.data dotGitL = false) :
    extractGitHubRepo (u ++ ".git") = some r := by
  have ht : (if endsWithL u.data slashL = true then u.data.dropLast else u.data) = u.data :=
    if_neg (by rw [h1]; exact Bool.false_ne_true)
  simp only [extractGitHubRepo, ht] at hx
  rcases hsplit : splitLastSlash u.data with _ | ⟨A, seg⟩
  · rw [hsplit] at hx
    exact Option.noConfusion hx
  · simp only [hsplit] at hx
    by_cases hseg : seg = []
    · rw [if_pos hseg] at hx
      exact Option.noConfusion hx
    · rw [if_neg hseg] at hx
      have hsegGit : endsWithL seg dotGitL = false := by
        cases hEG : endsWithL seg dotGitL
        · rfl
        · exfalso
          have hall : endsWithL u.data dotGitL = true := by
            rw [splitLastSlash_decomp u.data A seg hsplit]
            have h5 : endsWithL ('/' :: seg) dotGitL = true := by
              have h6 := endsWith_append_left ['/'] seg dotGitL hEG
              simpa using h6
            exact endsWith_append_left A ('/' :: seg) dotGitL h5
          rw [h2] at hall
          exact Bool.noConfusion hall
      have hcond : ¬(endsWithL seg dotGitL = true ∧ 4 < seg.length) := by
        intro hco
        rw [hsegGit] at hco
        exact Bool.noConfusion hco.1
      rw [if_neg hcond] at hx
      rcases ho : ownerFromLeft A with _ | owner
      · rw [ho] at hx
        exact Option.noConfusion hx
      · simp only [ho] at hx
        rw [if_neg (by rw [hsegGit]; exact Bool.false_ne_true)] at hx
        have hdata : (u ++ ".git").data = u.data ++ dotGitL := by
          rw [String.data_append]
          rfl
        have ht2 : (if endsWithL (u.data ++ dotGitL) slashL = true
            then (u.data ++ dotGitL).dropLast else u.data ++ dotGitL) = u.data ++ dotGitL :=
          if_neg (by rw [endsWith_dotGit_slash]; exact Bool.false_ne_true)
        simp only [extractGitHubRepo, hdata, ht2]
        simp only [splitLastSlash_append_some u.data dotGitL (by decide) A seg hsplit]
        rw [if_neg (by simp [dotGitL])]
        have hpos : 0 < seg.length := List.length_pos.mpr hseg
        have hlen : dotGitL.length = 4 := rfl
        have hcond2 : endsWithL (seg ++ dotGitL) dotGitL = true
            ∧ 4 < (seg ++ dotGitL).length := by
          refine ⟨endsWith_append_self seg dotGitL, ?_⟩
          rw [List.length_append, hlen]
          omega
        rw [if_pos hcond2]
        have htake : (seg ++ dotGitL).take ((seg ++ dotGitL).length - 4) = seg := by
          rw [List.length_append, hlen, Nat.add_sub_cancel]
          exact List.take_left seg dotGitL
        rw [htake]
        simp only [ho]
        rw [if_neg (by rw [hsegGit]; exact Bool.false_ne_true)]
        exact hx

/-- Claim C8: name derivation is pure and deterministic, and insensitive to
a trailing recognized source-control suffix: for every reference that
parses, does not end with a slash and does not already carry the suffix,
the reference with .git appended derives the same base name. -/
theorem names_C8 :
    (∀ x : String, deriveName x = deriveName x)
    ∧ (∀ (u r : String), extractGitHubRepo u = some r →
        endsWithL u.data slashL = false →
        endsWithL u.data dotGitL = false →
        deriveName (u ++ ".git") = deriveName u) :=
  ⟨fun _ => rfl, fun u r hx h1 h2 => by
    unfold deriveName
    rw [extract_append_git u r hx h1 h2, hx]⟩

/-- Witness for C8 at a concrete GitHub URL. -/
theorem names_C8_witness :
    extractGitHubRepo "https://github.com/acme/shop" = some "acme/shop"
    ∧ endsWithL "https://github.com/acme/shop".data slashL = false
    ∧ endsWithL "https://github.com/acme/shop".data dotGitL = false
    ∧ deriveName ("https://github.com/acme/shop" ++ ".git")
        = deriveName "https://github.com/acme/shop" :=
  ⟨rfl, by decide, by decide,
    names_C8.2 "https://github.com/acme/shop" "acme/shop" rfl (by decide) (by decide)⟩

end Trinity
